import Mathlib

/-!
Verification of the `@substrate-system/keyframe` signing / timestamping /
revision-chain engine against its design document.

The development is a shallow embedding of the TypeScript sources:

* `src/util.ts` — byte/hex codecs (`bufferToHex`, `hexToBuffer`);
* `src/index.ts` — SHA-256 / Ed25519 wrappers, the RFC 3161 request
  builder and `genTime` parsing, `signFile` / `verifyFileSignature`, and
  the merkle-list revision chain (`createSignedContent`, `addRevision`,
  `verifyChain`);
* `src/node/index.ts` — JPEG EXIF embedding (`signJpegWithExif`,
  `verifyJpegExif`).

Byte strings are `List Nat` with each element below 256.  The WebCrypto
primitives (`crypto.subtle`), the JSON codec, the ASN.1 builder and the
EXIF codec are external to the repository; they are represented by
explicit structures of functions, and the facts the design document
states about them become hypotheses of the theorems (each such
definition carries a comment saying what it models).  All repository
code is translated statement by statement from the source files.
-/

namespace Keyframe

/-- A byte string: every element is an actual byte value. -/
def IsBytes (l : List Nat) : Prop := ∀ x ∈ l, x < 256

instance : DecidablePred IsBytes := fun l =>
  inferInstanceAs (Decidable (∀ x ∈ l, x < 256))

-- ============================================================================
-- Codec (src/util.ts): bufferToHex / hexToBuffer
-- ============================================================================

/-- `b.toString(16)` for a natural number: base-16 digits, lowercase
(ECMAScript `Number.prototype.toString(16)` on a small integer). -/
def toString16 (b : Nat) : List Char := Nat.toDigits 16 b

/-- `.padStart(2, '0')` applied to a digit string. -/
def padStart2 (cs : List Char) : List Char :=
  List.replicate (2 - cs.length) '0' ++ cs

/-- One byte of `bufferToHex`: `b.toString(16).padStart(2, '0')`. -/
def byteToHex (b : Nat) : List Char := padStart2 (toString16 b)

/-- `bufferToHex` (src/util.ts): map every byte to its two-digit
lowercase hex form and join. -/
def bufferToHex (buffer : List Nat) : String :=
  ⟨(buffer.map byteToHex).flatten⟩

/-- Value of a single hexadecimal character, as `parseInt(·, 16)`
accepts it (digits, lowercase and uppercase letters). -/
def hexCharVal (c : Char) : Option Nat :=
  if '0' ≤ c ∧ c ≤ '9' then some (c.toNat - 48)
  else if 'a' ≤ c ∧ c ≤ 'f' then some (c.toNat - 87)
  else if 'A' ≤ c ∧ c ≤ 'F' then some (c.toNat - 55)
  else none

/-- `parseInt(pair, 16)` on a two-character chunk, followed by the
`Uint8Array` element store: an invalid first character gives `NaN`,
stored as `0`; an invalid second character leaves the one-digit prefix
value (`parseInt` parses the longest valid prefix). -/
def parseHexPair (c1 c2 : Char) : Nat :=
  match hexCharVal c1, hexCharVal c2 with
  | none, _ => 0
  | some v1, none => v1
  | some v1, some v2 => 16 * v1 + v2

/-- The loop of `hexToBuffer`: consume the string two characters at a
time.  A trailing odd character is dropped: the `Uint8Array` is
allocated with ⌊length / 2⌋ elements and the final out-of-range store
is ignored. -/
def hexPairsToBytes : List Char → List Nat
  | c1 :: c2 :: rest => parseHexPair c1 c2 :: hexPairsToBytes rest
  | _ => []

/-- `hexToBuffer` (src/util.ts). -/
def hexToBuffer (hex : String) : List Nat := hexPairsToBytes hex.data

/-- The sixteen characters `bufferToHex` may emit. -/
def lowercaseHexDigits : List Char := "0123456789abcdef".data

-- ============================================================================
-- C10 groundwork: per-byte facts, proved by exhaustive computation.
-- ============================================================================

set_option maxRecDepth 4000 in
theorem byteToHex_facts : ∀ b : Fin 256,
    (byteToHex b.val).length = 2 ∧
    hexPairsToBytes (byteToHex b.val) = [b.val] ∧
    (byteToHex b.val).all (fun c => c ∈ lowercaseHexDigits) = true := by
  decide

theorem byteToHex_pair (b : Nat) (h : b < 256) :
    ∃ c1 c2, byteToHex b = [c1, c2] ∧ parseHexPair c1 c2 = b ∧
      c1 ∈ lowercaseHexDigits ∧ c2 ∈ lowercaseHexDigits := by
  obtain ⟨hlen, hpair, hlow⟩ := byteToHex_facts ⟨b, h⟩
  match hbx : byteToHex b with
  | [] => rw [hbx] at hlen; simp at hlen
  | [_] => rw [hbx] at hlen; simp at hlen
  | c1 :: c2 :: c3 :: _ => rw [hbx] at hlen; simp at hlen
  | [c1, c2] =>
    refine ⟨c1, c2, rfl, ?_, ?_, ?_⟩
    · rw [hbx] at hpair
      simpa [hexPairsToBytes] using hpair
    · rw [hbx] at hlow
      simp [List.all_eq_true] at hlow
      exact hlow.1
    · rw [hbx] at hlow
      simp [List.all_eq_true] at hlow
      exact hlow.2

theorem hexPairs_roundtrip (bs : List Nat) (h : IsBytes bs) :
    hexPairsToBytes ((bs.map byteToHex).flatten) = bs ∧
    ((bs.map byteToHex).flatten).length = 2 * bs.length ∧
    ∀ c ∈ (bs.map byteToHex).flatten, c ∈ lowercaseHexDigits := by
  induction bs with
  | nil => simp [hexPairsToBytes]
  | cons b rest ih =>
    have hb : b < 256 := h b (by simp)
    have hrest : IsBytes rest := fun x hx => h x (by simp [hx])
    obtain ⟨ih1, ih2, ih3⟩ := ih hrest
    obtain ⟨c1, c2, hbx, hpv, hc1, hc2⟩ := byteToHex_pair b hb
    constructor
    · simp only [List.map_cons, List.flatten_cons, hbx]
      simpa [hexPairsToBytes, hpv] using ih1
    constructor
    · simp only [List.map_cons, List.flatten_cons, hbx]
      simp [ih2, List.length_append, Nat.mul_succ, Nat.add_comm]
      omega
    · intro c hc
      simp only [List.map_cons, List.flatten_cons, hbx] at hc
      rcases List.mem_append.mp hc with hc | hc
      · rcases List.mem_cons.mp hc with hc | hc
        · rw [hc]; exact hc1
        · simp only [List.mem_singleton] at hc
          rw [hc]; exact hc2
      · exact ih3 c hc

/-- C10: `hexToBuffer` inverts `bufferToHex` on byte strings, the hex
string has exactly two characters per byte, and every character is a
lowercase hexadecimal digit. -/
theorem hexToBuffer_bufferToHex (b : List Nat) (h : IsBytes b) :
    hexToBuffer (bufferToHex b) = b ∧
    (bufferToHex b).length = 2 * b.length ∧
    ∀ c ∈ (bufferToHex b).data, c ∈ lowercaseHexDigits := by
  obtain ⟨h1, h2, h3⟩ := hexPairs_roundtrip b h
  refine ⟨?_, ?_, ?_⟩
  · simpa [hexToBuffer, bufferToHex] using h1
  · simpa [bufferToHex, String.length] using h2
  · simpa [bufferToHex] using h3

/-- C10 witness: the round trip evaluated on the concrete byte string
`[0, 15, 16, 171, 255]`. -/
theorem hexToBuffer_bufferToHex_witness :
    IsBytes [0, 15, 16, 171, 255] ∧
    (hexToBuffer (bufferToHex [0, 15, 16, 171, 255]) = [0, 15, 16, 171, 255] ∧
     (bufferToHex [0, 15, 16, 171, 255]).length = 2 * ([0, 15, 16, 171, 255] : List Nat).length ∧
     ∀ c ∈ (bufferToHex [0, 15, 16, 171, 255]).data, c ∈ lowercaseHexDigits) :=
  ⟨by decide, hexToBuffer_bufferToHex [0, 15, 16, 171, 255] (by decide)⟩

-- ============================================================================
-- Platform crypto (crypto.subtle) and text encoding
-- ============================================================================

/-- Modelled from the spec: UTF-8 encoding of one code point, as done by
the platform `TextEncoder` (absent from src/; the design document fixes
UTF-8 as the one encoding used across sign and verify). -/
def utf8EncodeChar (c : Char) : List Nat :=
  let n := c.toNat
  if n < 128 then [n]
  else if n < 2048 then [192 + n / 64, 128 + n % 64]
  else if n < 65536 then
    [224 + n / 4096, 128 + (n / 64) % 64, 128 + n % 64]
  else
    [240 + n / 262144, 128 + (n / 4096) % 64, 128 + (n / 64) % 64, 128 + n % 64]

/-- Modelled from the spec: `new TextEncoder().encode(content)`. -/
def utf8Encode (s : String) : List Nat := (s.data.map utf8EncodeChar).flatten

/-- The platform cryptography used through `crypto.subtle` (external to
the repository): SHA-256 digesting, Ed25519 signing with a PKCS8 private
key, and the core Ed25519 acceptance check on a well-formed signature. -/
structure Subtle where
  sha256 : List Nat → List Nat
  edSign : List Nat → List Nat → List Nat
  edVerify : List Nat → List Nat → List Nat → Bool

/-- Modelled from the spec: `crypto.subtle.verify('Ed25519', …)` is not
part of this repository; the design document states that verification
"returns false (never throws) for any cryptographically invalid
combination, including malformed signature length".  The platform
verifier is therefore total: it rejects any signature that is not the
Ed25519 signature size of 64 bytes and otherwise defers to the core
check.  Arguments follow the WebCrypto order: key, signature, data. -/
def subtleVerify (S : Subtle) (publicKey signature data : List Nat) : Bool :=
  if signature.length = 64 then S.edVerify publicKey signature data else false

/-- `Keypair` (src/index.ts): raw 32-byte public key, PKCS8 private key. -/
structure Keypair where
  publicKey : List Nat
  privateKey : List Nat
deriving DecidableEq

/-- `hashContent` (src/index.ts): UTF-8 encode, then SHA-256. -/
def hashContent (S : Subtle) (content : String) : List Nat :=
  S.sha256 (utf8Encode content)

/-- `signHash` (src/index.ts): Ed25519-sign the digest bytes with the
private key and hex-encode the signature. -/
def signHash (S : Subtle) (hash : List Nat) (privateKey : List Nat) : String :=
  bufferToHex (S.edSign privateKey hash)

/-- `verifySignature` (src/index.ts): decode the hex signature and hex
hash and run the platform verification under the raw public key. -/
def verifySignature (S : Subtle) (hash signature : String)
    (publicKey : List Nat) : Bool :=
  subtleVerify S publicKey (hexToBuffer signature) (hexToBuffer hash)

/-- A matching keypair: everything the keypair's private key signs is
accepted by the platform verifier under its public key. -/
def KeypairValid (S : Subtle) (kp : Keypair) : Prop :=
  ∀ data : List Nat,
    subtleVerify S kp.publicKey (S.edSign kp.privateKey data) data = true

-- ============================================================================
-- Data model (src/index.ts types)
-- ============================================================================

/-- `Timestamp` (src/index.ts): TSA authority URL, RFC 3161 token
(base64) and the ISO-8601 time extracted from it. -/
structure Timestamp where
  authority : String
  token : String
  verifiedAt : String
deriving DecidableEq

/-- Open metadata map, an ordered string-to-string mapping (spec §9
represents the open `metadata` object as an explicit ordered mapping). -/
abbrev MetaMap := List (String × String)

/-- The `file` part of `FileSignature`. -/
structure FileInfo where
  name : String
  hash : String
  size : Nat
  mimeType : Option String
deriving DecidableEq

/-- The `signature` part of `FileSignature`. -/
structure SigInfo where
  algorithm : String
  publicKey : String
  signature : String
  signedAt : String
deriving DecidableEq

/-- `FileSignature` (src/index.ts). -/
structure FileSignature where
  version : String
  file : FileInfo
  signature : SigInfo
  timestamp : Timestamp
  metadata : Option MetaMap
deriving DecidableEq

/-- Result of a verification: `{ valid, errors }`. -/
structure VerifyResult where
  valid : Bool
  errors : List String
deriving DecidableEq

-- ============================================================================
-- signFile / verifyFileSignature (src/index.ts)
-- ============================================================================

/-- `signFile` (src/index.ts lines 493-536): SHA-256 the file bytes,
sign the digest, and assemble the record with the caller-supplied TSA
timestamp.  `now` is the wall-clock ISO string the source takes from
`new Date().toISOString()`. -/
def signFile (S : Subtle) (filename : String) (fileBuffer : List Nat)
    (kp : Keypair) (ts : Timestamp) (metadata : Option MetaMap)
    (now : String) : FileSignature :=
  let hashBuffer := S.sha256 fileBuffer
  let fileHash := bufferToHex hashBuffer
  let signature := signHash S hashBuffer kp.privateKey
  { version := "1.0"
    file := { name := filename, hash := fileHash, size := fileBuffer.length,
              mimeType := metadata.bind (fun m => List.lookup "mimeType" m) }
    signature := { algorithm := "Ed25519",
                   publicKey := bufferToHex kp.publicKey,
                   signature := signature,
                   signedAt := now }
    timestamp := ts
    metadata := metadata }

/-- `verifyFileSignature` (src/index.ts lines 541-580): recompute the
hash, compare the size, verify the Ed25519 signature over the stored
hash; collect an error per failed check; valid iff no errors. -/
def verifyFileSignature (S : Subtle) (sig : FileSignature)
    (fileBuffer : List Nat) : VerifyResult :=
  let computedHash := bufferToHex (S.sha256 fileBuffer)
  let e1 := if computedHash ≠ sig.file.hash then
              ["File hash mismatch - file has been modified"] else []
  let e2 := if fileBuffer.length ≠ sig.file.size then
              ["File size mismatch"] else []
  let publicKey := hexToBuffer sig.signature.publicKey
  let e3 := if verifySignature S sig.file.hash sig.signature.signature publicKey
            then [] else ["Invalid signature"]
  let errors := e1 ++ e2 ++ e3
  { valid := errors.isEmpty, errors := errors }

/-- Shared core: verifying the output of `signFile` against the same
bytes yields no error, for any keypair the platform accepts and any
platform whose digests and signatures are byte strings. -/
theorem verifyFile_signFile_aux (S : Subtle) (kp : Keypair)
    (hsha : ∀ b, IsBytes (S.sha256 b))
    (hsign : ∀ p d, IsBytes (S.edSign p d))
    (hpub : IsBytes kp.publicKey)
    (hkp : KeypairValid S kp)
    (filename : String) (fileBuffer : List Nat) (ts : Timestamp)
    (metadata : Option MetaMap) (now : String) :
    verifyFileSignature S (signFile S filename fileBuffer kp ts metadata now)
      fileBuffer = ⟨true, []⟩ := by
  have rt : ∀ l, IsBytes l → hexToBuffer (bufferToHex l) = l :=
    fun l h => (hexToBuffer_bufferToHex l h).1
  simp [verifyFileSignature, signFile, signHash, verifySignature,
    rt _ (hsha fileBuffer), rt _ (hsign kp.privateKey (S.sha256 fileBuffer)),
    rt _ hpub, hkp (S.sha256 fileBuffer)]

/-- C1: for every byte string, keypair accepted by the platform,
filename and TSA timestamp record, verifying the signature produced by
`signFile` against the same bytes succeeds with an empty error list. -/
theorem signFile_verifyFileSignature_valid (S : Subtle) (kp : Keypair)
    (hsha : ∀ b, IsBytes (S.sha256 b))
    (hsign : ∀ p d, IsBytes (S.edSign p d))
    (hpub : IsBytes kp.publicKey)
    (hkp : KeypairValid S kp)
    (filename : String) (fileBuffer : List Nat) (ts : Timestamp)
    (metadata : Option MetaMap) (now : String) :
    verifyFileSignature S (signFile S filename fileBuffer kp ts metadata now)
      fileBuffer = ⟨true, []⟩ :=
  verifyFile_signFile_aux S kp hsha hsign hpub hkp
    filename fileBuffer ts metadata now

-- Concrete platform instances used by the witnesses.

/-- A concrete platform: the digest of a byte string is its length
reduced mod 256, signatures are 64 zero bytes, and the core Ed25519
check accepts everything (the length gate still applies). -/
def S0 : Subtle where
  sha256 := fun b => [b.length % 256]
  edSign := fun _ _ => List.replicate 64 0
  edVerify := fun _ _ _ => true

/-- A concrete keypair for the witnesses. -/
def kp0 : Keypair := ⟨[1], [2]⟩

theorem S0_sha_bytes : ∀ b, IsBytes (S0.sha256 b) := by
  intro b x hx
  simp [S0] at hx
  omega

theorem S0_sign_bytes : ∀ p d, IsBytes (S0.edSign p d) := by
  intro p d x hx
  simp [S0] at hx
  omega

theorem kp0_valid : KeypairValid S0 kp0 := by
  intro d
  simp [subtleVerify, S0, kp0]

/-- C1 witness: the sign/verify round trip on the file bytes
`[1, 2, 3]` under the concrete platform. -/
theorem signFile_verifyFileSignature_valid_witness :
    IsBytes kp0.publicKey ∧
    verifyFileSignature S0
      (signFile S0 "f.txt" [1, 2, 3] kp0 ⟨"tsa", "tok", "t0"⟩ none "t1")
      [1, 2, 3] = ⟨true, []⟩ :=
  ⟨by decide,
   signFile_verifyFileSignature_valid S0 kp0 S0_sha_bytes S0_sign_bytes
     (by decide) kp0_valid "f.txt" [1, 2, 3] ⟨"tsa", "tok", "t0"⟩ none "t1"⟩

/-- C5: `verifyFileSignature` returns a structured result whose `valid`
is the conjunction of the hash check, the size check and the Ed25519
signature check, and whose error list is non-empty exactly when `valid`
is false. -/
theorem verifyFileSignature_conjunction (S : Subtle) (sig : FileSignature)
    (b : List Nat) :
    ((verifyFileSignature S sig b).valid =
      (decide (bufferToHex (S.sha256 b) = sig.file.hash) &&
       decide (b.length = sig.file.size) &&
       verifySignature S sig.file.hash sig.signature.signature
         (hexToBuffer sig.signature.publicKey))) ∧
    ((verifyFileSignature S sig b).errors ≠ [] ↔
      (verifyFileSignature S sig b).valid = false) := by
  by_cases h1 : bufferToHex (S.sha256 b) = sig.file.hash <;>
  by_cases h2 : b.length = sig.file.size <;>
  by_cases h3 : verifySignature S sig.file.hash sig.signature.signature
      (hexToBuffer sig.signature.publicKey) = true <;>
  simp [verifyFileSignature, h1, h2, h3]

/-- C6: `verifySignature` returns false (it is a total, Bool-valued
function, so it never throws) whenever the combination is
cryptographically invalid — the core Ed25519 check rejects it or the
signature has a malformed length. -/
theorem verifySignature_false_of_invalid (S : Subtle)
    (hash signature : String) (publicKey : List Nat)
    (h : (hexToBuffer signature).length ≠ 64 ∨
         S.edVerify publicKey (hexToBuffer signature) (hexToBuffer hash) = false) :
    verifySignature S hash signature publicKey = false := by
  unfold verifySignature subtleVerify
  rcases h with h | h
  · rw [if_neg h]
  · by_cases hl : (hexToBuffer signature).length = 64 <;> simp [hl, h]

/-- C6 witness: a one-byte (malformed length) signature is rejected. -/
theorem verifySignature_false_of_invalid_witness :
    ((hexToBuffer "00").length ≠ 64 ∨
      S0.edVerify [1] (hexToBuffer "00") (hexToBuffer "ff") = false) ∧
    verifySignature S0 "ff" "00" [1] = false :=
  ⟨Or.inl (by decide),
   verifySignature_false_of_invalid S0 "ff" "00" [1] (Or.inl (by decide))⟩

-- ============================================================================
-- Content signatures and the revision chain (src/index.ts)
-- ============================================================================

/-- `ContentSignature` (src/index.ts). -/
structure ContentSignature where
  contentHash : String
  signature : String
  publicKey : String
  timestamp : String
deriving DecidableEq

/-- `TimestampedSignature` (src/index.ts). -/
structure TimestampedSignature extends ContentSignature where
  tsaToken : String
  verifiedTimestamp : String
deriving DecidableEq

/-- `ContentRevision` (src/index.ts): `previousHash` is `null` (`none`)
for the first revision. -/
structure ContentRevision where
  content : String
  signature : TimestampedSignature
  previousHash : Option String
deriving DecidableEq

/-- `Manifest` (src/index.ts).  Spec §1 treats C2PA manifest schema
construction as an external flat JSON builder with no algorithmic
content; the embedding keeps the generator, title and signature fields
and elides the assertion list, which no operation of the engine reads. -/
structure Manifest where
  claim_generator_info : String
  title : String
  signatureAlg : String
  signatureValue : String
deriving DecidableEq

/-- `SignedContent` (src/index.ts). -/
structure SignedContent where
  content : String
  revisions : List ContentRevision
  c2paManifest : Option Manifest
deriving DecidableEq

/-- `TSAConfig` (src/index.ts). -/
structure TSAConfig where
  url : String
  hashAlgorithm : Option String
  policyOID : Option String
deriving DecidableEq

/-- The title/author/description metadata accepted by the manifest
builder and `createSignedContent`. -/
structure CMeta where
  title : Option String
  author : Option String
  description : Option String
deriving DecidableEq

/-- The effectful inputs of one signing call: the wall-clock reading
(`new Date().toISOString()`) and the TSA's response to
`requestTimestamp` — the base64 token and the ISO time parsed from it. -/
structure SignEvent where
  now : String
  token : String
  verifiedAt : String
deriving DecidableEq

/-- Modelled from the spec: the `version` string imported from
`package.json`, which is not under src/.  No claim depends on its
value. -/
def pkgVersion : String := "1.0.0"

/-- JavaScript truthiness of an optional string: `undefined` and the
empty string are falsy. -/
def jsTruthy : Option String → Option String
  | some s => if s = "" then none else some s
  | none => none

/-- `signContent` (src/index.ts): hash the content, sign the digest,
and record the hex hash, hex public key and the claimed timestamp. -/
def signContent (S : Subtle) (content : String) (kp : Keypair)
    (now : String) : ContentSignature :=
  let contentHash := hashContent S content
  let signature := signHash S contentHash kp.privateKey
  { contentHash := bufferToHex contentHash
    signature := signature
    publicKey := bufferToHex kp.publicKey
    timestamp := now }

/-- `signContentWithTimestamp` (src/index.ts): the basic signature plus
the TSA token and verified time delivered by `requestTimestamp` for
`tsaConfig` (the network exchange itself is outside the engine; its
result is the `SignEvent`). -/
def signContentWithTimestamp (S : Subtle) (content : String) (kp : Keypair)
    (tsaConfig : TSAConfig) (e : SignEvent) : TimestampedSignature :=
  let basicSig := signContent S content kp e.now
  { toContentSignature := basicSig
    tsaToken := e.token
    verifiedTimestamp := e.verifiedAt }

/-- `createC2PAManifest` (src/index.ts): `metadata?.title || 'Signed
Content'` picks the title; the signature block carries the Ed25519
signature value. -/
def createC2PAManifest (_content : String) (signature : TimestampedSignature)
    (metadata : Option CMeta) : Manifest :=
  { claim_generator_info := "@substrate-system/keyframe" ++ pkgVersion
    title := (jsTruthy (metadata.bind (fun m => m.title))).getD "Signed Content"
    signatureAlg := "ed25519"
    signatureValue := signature.signature }

/-- `createSignedContent` (src/index.ts lines 756-776): one revision
with `previousHash = null`. -/
def createSignedContent (S : Subtle) (content : String) (kp : Keypair)
    (tsaConfig : TSAConfig) (metadata : Option CMeta) (e : SignEvent) :
    SignedContent :=
  let signature := signContentWithTimestamp S content kp tsaConfig e
  let manifest := createC2PAManifest content signature metadata
  let revision : ContentRevision :=
    { content := content, signature := signature, previousHash := none }
  { content := content
    revisions := [revision]
    c2paManifest := some manifest }

/-- `addRevision` (src/index.ts lines 781-804): `previousHash` is the
`contentHash` of the last element of `chain.revisions`.  On an empty
chain `revisions[revisions.length - 1]` is `undefined` and reading
`.signature` from it throws, which the embedding renders as `none`. -/
def addRevision (S : Subtle) (signedContent : SignedContent)
    (newContent : String) (kp : Keypair) (tsaConfig : TSAConfig)
    (e : SignEvent) : Option SignedContent :=
  match signedContent.revisions.getLast? with
  | none => none
  | some lastRevision =>
    let previousHash := lastRevision.signature.contentHash
    let signature := signContentWithTimestamp S newContent kp tsaConfig e
    let revision : ContentRevision :=
      { content := newContent
        signature := signature
        previousHash := some previousHash }
    some { content := newContent
           revisions := signedContent.revisions ++ [revision]
           c2paManifest := some (createC2PAManifest newContent signature none) }

/-- The indexed error strings of `verifyChain`. -/
def revErr (i : Nat) (msg : String) : String :=
  "Revision " ++ toString i ++ ": " ++ msg

/-- The loop body of `verifyChain` (src/index.ts lines 815-847), walked
structurally: `i` is the index of the current revision and `prevHash`
is `revisions[i - 1].signature.contentHash` when `i > 0`.  Each failed
check appends its indexed error; the walk never stops early. -/
def chainErrorsAux (S : Subtle) (publicKey : List Nat) :
    Nat → Option String → List ContentRevision → List String
  | _, _, [] => []
  | i, prevHash, revision :: rest =>
    let hashString := bufferToHex (hashContent S revision.content)
    let e1 := if hashString ≠ revision.signature.contentHash then
                [revErr i "Content hash mismatch"] else []
    let e2 := if verifySignature S revision.signature.contentHash
                   revision.signature.signature publicKey then []
              else [revErr i "Invalid signature"]
    let e3 := match prevHash with
      | some prev =>
        if revision.previousHash ≠ some prev then
          [revErr i "Chain linkage broken"] else []
      | none =>
        if revision.previousHash ≠ none then
          [revErr i "First revision should have null previousHash"] else []
    e1 ++ e2 ++ e3 ++
      chainErrorsAux S publicKey (i + 1)
        (some revision.signature.contentHash) rest

/-- `verifyChain` (src/index.ts lines 809-853). -/
def verifyChain (S : Subtle) (signedContent : SignedContent)
    (publicKey : List Nat) : VerifyResult :=
  let errors := chainErrorsAux S publicKey 0 none signedContent.revisions
  { valid := errors.isEmpty, errors := errors }

/-- A basic signature produced by `signContent` verifies under the
signer's public key. -/
theorem verifySignature_signContent (S : Subtle) (kp : Keypair)
    (hsha : ∀ b, IsBytes (S.sha256 b))
    (hsign : ∀ p d, IsBytes (S.edSign p d))
    (hkp : KeypairValid S kp) (c : String) :
    verifySignature S (bufferToHex (hashContent S c))
      (signHash S (hashContent S c) kp.privateKey) kp.publicKey = true := by
  have rt : ∀ l, IsBytes l → hexToBuffer (bufferToHex l) = l :=
    fun l h => (hexToBuffer_bufferToHex l h).1
  simp [signContent, signHash, verifySignature, hashContent,
    rt _ (hsha (utf8Encode c)),
    rt _ (hsign kp.privateKey (S.sha256 (utf8Encode c))),
    hkp (S.sha256 (utf8Encode c))]

/-- `verifyChain` reports a hash mismatch for every revision whose
recomputed content hash differs from its stored `contentHash`,
whatever happens at the other revisions. -/
def ReportsAllHashMismatches (S : Subtle) : Prop :=
  ∀ (sc : SignedContent) (pub : List Nat) (i : Nat) (r : ContentRevision),
    sc.revisions[i]? = some r →
    bufferToHex (hashContent S r.content) ≠ r.signature.contentHash →
    revErr i "Content hash mismatch" ∈ (verifyChain S sc pub).errors

/-- `verifyChain` reports an invalid signature for every revision whose
stored signature fails verification, whatever happens at the other
revisions. -/
def ReportsAllBadSignatures (S : Subtle) : Prop :=
  ∀ (sc : SignedContent) (pub : List Nat) (i : Nat) (r : ContentRevision),
    sc.revisions[i]? = some r →
    verifySignature S r.signature.contentHash r.signature.signature pub
      = false →
    revErr i "Invalid signature" ∈ (verifyChain S sc pub).errors

theorem chainErrorsAux_hash_mem (S : Subtle) (pub : List Nat) :
    ∀ (revs : List ContentRevision) (k : Nat) (prev : Option String)
      (i : Nat) (r : ContentRevision),
      revs[i]? = some r →
      bufferToHex (hashContent S r.content) ≠ r.signature.contentHash →
      revErr (k + i) "Content hash mismatch" ∈
        chainErrorsAux S pub k prev revs := by
  intro revs
  induction revs with
  | nil => intro k prev i r h; simp at h
  | cons a rest ih =>
    intro k prev i r h hm
    cases i with
    | zero =>
      simp only [List.getElem?_cons_zero, Option.some.injEq] at h
      subst h
      simp [chainErrorsAux, if_pos hm]
    | succ j =>
      simp only [List.getElem?_cons_succ] at h
      have hmem := ih (k + 1) (some a.signature.contentHash) j r h hm
      have hidx : k + 1 + j = k + (j + 1) := by omega
      rw [hidx] at hmem
      simp only [chainErrorsAux, List.mem_append]
      exact Or.inr hmem

theorem chainErrorsAux_sig_mem (S : Subtle) (pub : List Nat) :
    ∀ (revs : List ContentRevision) (k : Nat) (prev : Option String)
      (i : Nat) (r : ContentRevision),
      revs[i]? = some r →
      verifySignature S r.signature.contentHash r.signature.signature pub
        = false →
      revErr (k + i) "Invalid signature" ∈
        chainErrorsAux S pub k prev revs := by
  intro revs
  induction revs with
  | nil => intro k prev i r h; simp at h
  | cons a rest ih =>
    intro k prev i r h hm
    cases i with
    | zero =>
      simp only [List.getElem?_cons_zero, Option.some.injEq] at h
      subst h
      simp [chainErrorsAux, hm]
    | succ j =>
      simp only [List.getElem?_cons_succ] at h
      have hmem := ih (k + 1) (some a.signature.contentHash) j r h hm
      have hidx : k + 1 + j = k + (j + 1) := by omega
      rw [hidx] at hmem
      simp only [chainErrorsAux, List.mem_append]
      exact Or.inr hmem

/-- `verifyChain` reports broken linkage for every revision at a
positive index whose `previousHash` differs from the previous
revision's stored `contentHash`, whatever happens at the other
revisions. -/
def ReportsAllLinkageBreaks (S : Subtle) : Prop :=
  ∀ (sc : SignedContent) (pub : List Nat) (i : Nat) (p r : ContentRevision),
    sc.revisions[i]? = some p → sc.revisions[i + 1]? = some r →
    r.previousHash ≠ some p.signature.contentHash →
    revErr (i + 1) "Chain linkage broken" ∈ (verifyChain S sc pub).errors

/-- `verifyChain` reports a first revision whose `previousHash` is not
`null`, whatever happens at the other revisions. -/
def ReportsFirstRevisionNullBreak (S : Subtle) : Prop :=
  ∀ (sc : SignedContent) (pub : List Nat) (r : ContentRevision),
    sc.revisions[0]? = some r → r.previousHash ≠ none →
    revErr 0 "First revision should have null previousHash"
      ∈ (verifyChain S sc pub).errors

theorem chainErrorsAux_link_mem (S : Subtle) (pub : List Nat) :
    ∀ (revs : List ContentRevision) (k : Nat) (prev : Option String)
      (i : Nat) (p r : ContentRevision),
      revs[i]? = some p → revs[i + 1]? = some r →
      r.previousHash ≠ some p.signature.contentHash →
      revErr (k + i + 1) "Chain linkage broken" ∈
        chainErrorsAux S pub k prev revs := by
  intro revs
  induction revs with
  | nil => intro k prev i p r h1; simp at h1
  | cons a rest ih =>
    intro k prev i p r h1 h2 hm
    cases i with
    | zero =>
      simp only [List.getElem?_cons_zero, Option.some.injEq] at h1
      subst h1
      simp only [List.getElem?_cons_succ] at h2
      cases rest with
      | nil => simp at h2
      | cons b rest2 =>
        simp only [List.getElem?_cons_zero, Option.some.injEq] at h2
        rw [h2]
        have hidx : k + 0 + 1 = k + 1 := by omega
        rw [hidx]
        simp only [chainErrorsAux, List.mem_append]
        exact Or.inr (Or.inl (Or.inr (by simp [hm])))
    | succ j =>
      simp only [List.getElem?_cons_succ] at h1 h2
      have hmem := ih (k + 1) (some a.signature.contentHash) j p r h1 h2 hm
      have hidx : k + 1 + j + 1 = k + (j + 1) + 1 := by omega
      rw [hidx] at hmem
      simp only [chainErrorsAux, List.mem_append]
      exact Or.inr hmem

/-- A chain built by `createSignedContent` and three successive
`addRevision` calls. -/
def buildChain4 (S : Subtle) (kp : Keypair) (tsaConfig : TSAConfig)
    (metadata : Option CMeta) (c0 c1 c2 c3 : String)
    (e0 e1 e2 e3 : SignEvent) : Option SignedContent :=
  (addRevision S (createSignedContent S c0 kp tsaConfig metadata e0)
      c1 kp tsaConfig e1).bind fun x =>
    (addRevision S x c2 kp tsaConfig e2).bind fun y =>
      addRevision S y c3 kp tsaConfig e3

/-- Replace the content of revision `i`, leaving its stored signature
(and hence its stored `contentHash`) untouched. -/
def corruptRevisionContent (sc : SignedContent) (i : Nat) (c : String) :
    SignedContent :=
  match sc.revisions[i]? with
  | some r => { sc with revisions := sc.revisions.set i { r with content := c } }
  | none => sc

/-- C2: `verifyChain` does not short-circuit — every failed check of
every kind (content hash, signature, `previousHash` linkage at a
positive index, non-null `previousHash` on the first revision)
contributes its own index-labelled error — and on a chain built by
`createSignedContent` plus three `addRevision` calls, corrupting only
`revisions[1].content` yields `valid = false` with exactly the single
error `"Revision 1: Content hash mismatch"` (so no error mentions
index 0 or 2). -/
theorem verifyChain_reports_all (S : Subtle) (kp : Keypair)
    (tsaConfig : TSAConfig) (metadata : Option CMeta)
    (c0 c1 c2 c3 cBad : String) (e0 e1 e2 e3 : SignEvent)
    (hsha : ∀ b, IsBytes (S.sha256 b))
    (hsign : ∀ p d, IsBytes (S.edSign p d))
    (hkp : KeypairValid S kp)
    (hbad : bufferToHex (hashContent S cBad) ≠ bufferToHex (hashContent S c1)) :
    ReportsAllHashMismatches S ∧ ReportsAllBadSignatures S ∧
    ReportsAllLinkageBreaks S ∧ ReportsFirstRevisionNullBreak S ∧
    ∃ chain,
      buildChain4 S kp tsaConfig metadata c0 c1 c2 c3 e0 e1 e2 e3
        = some chain ∧
      verifyChain S (corruptRevisionContent chain 1 cBad) kp.publicKey
        = ⟨false, [revErr 1 "Content hash mismatch"]⟩ := by
  refine ⟨?_, ?_, ?_, ?_, ?_⟩
  · intro sc pub i r h hm
    simpa [verifyChain] using
      chainErrorsAux_hash_mem S pub sc.revisions 0 none i r h hm
  · intro sc pub i r h hm
    simpa [verifyChain] using
      chainErrorsAux_sig_mem S pub sc.revisions 0 none i r h hm
  · intro sc pub i p r h1 h2 hm
    simpa [verifyChain] using
      chainErrorsAux_link_mem S pub sc.revisions 0 none i p r h1 h2 hm
  · intro sc pub r h hm
    cases hrev : sc.revisions with
    | nil => rw [hrev] at h; simp at h
    | cons a rest =>
      rw [hrev] at h
      simp only [List.getElem?_cons_zero, Option.some.injEq] at h
      rw [← h] at hm
      simp only [verifyChain, hrev, chainErrorsAux, List.mem_append]
      exact Or.inl (Or.inr (by simp [hm]))
  · refine ⟨_, rfl, ?_⟩
    have hv := verifySignature_signContent S kp hsha hsign hkp
    simp [buildChain4, createSignedContent, addRevision,
      corruptRevisionContent, verifyChain, chainErrorsAux,
      signContentWithTimestamp, signContent, hv c0, hv c1,
      hv c2, hv c3, hbad]

/-- C2 witness: the corruption scenario evaluated on the concrete
platform with contents "a" "b" "c" "d" and corrupted content "bb". -/
theorem verifyChain_reports_all_witness :
    bufferToHex (hashContent S0 "bb") ≠ bufferToHex (hashContent S0 "b") ∧
    (ReportsAllHashMismatches S0 ∧ ReportsAllBadSignatures S0 ∧
     ReportsAllLinkageBreaks S0 ∧ ReportsFirstRevisionNullBreak S0 ∧
     ∃ chain,
       buildChain4 S0 kp0 ⟨"https://tsa.example", none, none⟩ none
           "a" "b" "c" "d" ⟨"t0", "k0", "v0"⟩ ⟨"t1", "k1", "v1"⟩
           ⟨"t2", "k2", "v2"⟩ ⟨"t3", "k3", "v3"⟩ = some chain ∧
       verifyChain S0 (corruptRevisionContent chain 1 "bb") kp0.publicKey
         = ⟨false, [revErr 1 "Content hash mismatch"]⟩) :=
  ⟨by decide,
   verifyChain_reports_all S0 kp0 ⟨"https://tsa.example", none, none⟩ none
     "a" "b" "c" "d" "bb" ⟨"t0", "k0", "v0"⟩ ⟨"t1", "k1", "v1"⟩
     ⟨"t2", "k2", "v2"⟩ ⟨"t3", "k3", "v3"⟩
     S0_sha_bytes S0_sign_bytes kp0_valid (by decide)⟩

/-- C3: `createSignedContent` produces exactly one revision, with
`previousHash = null`, and `verifyChain` accepts the result under the
signer's public key. -/
theorem createSignedContent_single_valid (S : Subtle) (kp : Keypair)
    (tsaConfig : TSAConfig) (metadata : Option CMeta) (c : String)
    (e : SignEvent)
    (hsha : ∀ b, IsBytes (S.sha256 b))
    (hsign : ∀ p d, IsBytes (S.edSign p d))
    (hkp : KeypairValid S kp) :
    (createSignedContent S c kp tsaConfig metadata e).revisions =
      [⟨c, signContentWithTimestamp S c kp tsaConfig e, none⟩] ∧
    verifyChain S (createSignedContent S c kp tsaConfig metadata e)
      kp.publicKey = ⟨true, []⟩ := by
  constructor
  · rfl
  · have hv := verifySignature_signContent S kp hsha hsign hkp
    simp [createSignedContent, verifyChain, chainErrorsAux,
      signContentWithTimestamp, signContent, hv c]

/-- C3 witness: the single-revision chain on the concrete platform. -/
theorem createSignedContent_single_valid_witness :
    KeypairValid S0 kp0 ∧
    ((createSignedContent S0 "hello" kp0 ⟨"https://tsa.example", none, none⟩
        none ⟨"t0", "k0", "v0"⟩).revisions =
      [⟨"hello", signContentWithTimestamp S0 "hello" kp0
          ⟨"https://tsa.example", none, none⟩ ⟨"t0", "k0", "v0"⟩, none⟩] ∧
     verifyChain S0 (createSignedContent S0 "hello" kp0
        ⟨"https://tsa.example", none, none⟩ none ⟨"t0", "k0", "v0"⟩)
       kp0.publicKey = ⟨true, []⟩) :=
  ⟨kp0_valid,
   createSignedContent_single_valid S0 kp0 ⟨"https://tsa.example", none, none⟩
     none "hello" ⟨"t0", "k0", "v0"⟩ S0_sha_bytes S0_sign_bytes kp0_valid⟩

/-- C4: on a non-empty chain, `addRevision` returns a new chain whose
revisions are exactly the input's revisions followed by one new
revision whose `previousHash` is the `contentHash` of the last input
revision (the input value itself is untouched — it reappears as the
unchanged prefix). -/
theorem addRevision_appends (S : Subtle) (sc : SignedContent)
    (newContent : String) (kp : Keypair) (tsaConfig : TSAConfig)
    (e : SignEvent) (h : sc.revisions ≠ []) :
    addRevision S sc newContent kp tsaConfig e = some
      { content := newContent
        revisions := sc.revisions ++
          [⟨newContent, signContentWithTimestamp S newContent kp tsaConfig e,
            some ((sc.revisions.getLast h).signature.contentHash)⟩]
        c2paManifest := some (createC2PAManifest newContent
          (signContentWithTimestamp S newContent kp tsaConfig e) none) } := by
  unfold addRevision
  rw [List.getLast?_eq_getLast sc.revisions h]

/-- C4 witness: appending to a concrete one-revision chain. -/
theorem addRevision_appends_witness :
    (createSignedContent S0 "v1" kp0 ⟨"https://tsa.example", none, none⟩
        none ⟨"t0", "k0", "v0"⟩).revisions ≠ [] ∧
    addRevision S0 (createSignedContent S0 "v1" kp0
        ⟨"https://tsa.example", none, none⟩ none ⟨"t0", "k0", "v0"⟩)
      "v2" kp0 ⟨"https://tsa.example", none, none⟩ ⟨"t1", "k1", "v1"⟩ = some
      { content := "v2"
        revisions := (createSignedContent S0 "v1" kp0
            ⟨"https://tsa.example", none, none⟩ none
            ⟨"t0", "k0", "v0"⟩).revisions ++
          [⟨"v2", signContentWithTimestamp S0 "v2" kp0
              ⟨"https://tsa.example", none, none⟩ ⟨"t1", "k1", "v1"⟩,
            some (((createSignedContent S0 "v1" kp0
                ⟨"https://tsa.example", none, none⟩ none
                ⟨"t0", "k0", "v0"⟩).revisions.getLast
              (by decide)).signature.contentHash)⟩]
        c2paManifest := some (createC2PAManifest "v2"
          (signContentWithTimestamp S0 "v2" kp0
            ⟨"https://tsa.example", none, none⟩ ⟨"t1", "k1", "v1"⟩) none) } :=
  ⟨by decide,
   addRevision_appends S0 (createSignedContent S0 "v1" kp0
       ⟨"https://tsa.example", none, none⟩ none ⟨"t0", "k0", "v0"⟩)
     "v2" kp0 ⟨"https://tsa.example", none, none⟩ ⟨"t1", "k1", "v1"⟩
     (by decide)⟩

-- ============================================================================
-- RFC 3161 request construction (src/index.ts, createTimeStampRequest)
-- ============================================================================

/-- Modelled from the spec: the `@substrate-system/asn1` builder used by
`createTimeStampRequest` is external to the repository.  `ASN1.Any(tag,
...parts)` and `ASN1.UInt(hex)` return DER hex strings; the claims are
proved for an arbitrary builder, so only its being a function of its
arguments matters. -/
structure Asn1 where
  any : String → List String → String
  uint : String → String

/-- `config.hashAlgorithm || 'sha256'`: `undefined` and the empty
string are falsy and fall back to the default. -/
def effectiveHashAlg (config : TSAConfig) : String :=
  match config.hashAlgorithm with
  | none => "sha256"
  | some a => if a = "" then "sha256" else a

/-- A JavaScript value that the bracket lookup `oids[hashAlg]` can
yield: an own string property (an OID), a member inherited from
`Object.prototype` (a function, or `Object.prototype` itself for
`__proto__` — truthy in either case), or `undefined`. -/
inductive JsLookup
  | ownStr : String → JsLookup
  | protoMember : String → JsLookup
  | undef : JsLookup
deriving DecidableEq

/-- The property names every plain object literal inherits from
`Object.prototype` (ECMAScript): a bracket lookup of one of these on
`oids` is defined and truthy even though it is not an own key. -/
def objectProtoProps : List String :=
  ["constructor", "hasOwnProperty", "isPrototypeOf", "propertyIsEnumerable",
   "toLocaleString", "toString", "valueOf", "__proto__",
   "__defineGetter__", "__defineSetter__", "__lookupGetter__",
   "__lookupSetter__"]

/-- `oids[hashAlg]` on the three-entry object literal of
`createTimeStampRequest` (src/index.ts lines 294-298), with JavaScript
property-lookup semantics: own properties first (the DER hex of
2.16.840.1.101.3.4.2.{1,2,3}), then the prototype chain, then
`undefined`. -/
def oidsLookup (alg : String) : JsLookup :=
  if alg = "sha256" then JsLookup.ownStr "608648016503040201"
  else if alg = "sha384" then JsLookup.ownStr "608648016503040202"
  else if alg = "sha512" then JsLookup.ownStr "608648016503040203"
  else if alg ∈ objectProtoProps then JsLookup.protoMember alg
  else JsLookup.undef

/-- `oids[hashAlg] || oids.sha256`: only `undefined` is falsy here, so
only a name that is neither an own key nor an inherited
`Object.prototype` member falls back to the sha256 OID. -/
def selectedOidJs (config : TSAConfig) : JsLookup :=
  match oidsLookup (effectiveHashAlg config) with
  | JsLookup.undef => JsLookup.ownStr "608648016503040201"
  | v => v

/-- `createTimeStampRequest` (src/index.ts lines 286-323): build
`MessageImprint` from the AlgorithmIdentifier with the selected OID and
the hash octets, then the `TimeStampReq` with version 1, the
message imprint, the nonce and `certReq = TRUE`.  The nonce is the
8-byte `crypto.getRandomValues` output, passed in explicitly.  When the
lookup hits an inherited `Object.prototype` member, the external ASN.1
builder receives a function instead of a hex string — outside its DER
domain, so no well-formed request arises (rendered `none`; the `undef`
arm is unreachable after the `||` fallback). -/
def createTimeStampRequest (A : Asn1) (hash : String) (config : TSAConfig)
    (nonce : List Nat) : Option (List Nat) :=
  match selectedOidJs config with
  | JsLookup.ownStr oid =>
    let hashBytes := hexToBuffer hash
    let messageImprint :=
      A.any "30" [A.any "30" [A.any "06" [oid], A.any "05" [""]],
                  A.any "04" [bufferToHex hashBytes]]
    let request :=
      A.any "30" [A.uint "01", messageImprint,
                  A.uint (bufferToHex nonce), A.any "01" ["01"]]
    some (hexToBuffer request)
  | JsLookup.protoMember _ => none
  | JsLookup.undef => none

/-- A concrete ASN.1 builder for the witness and counterexample:
concatenation. -/
def A0 : Asn1 where
  any := fun tag parts => tag ++ String.join parts
  uint := fun s => s

/-- C8 counterexample: for the unsupported name "toString" the bracket
lookup hits `Object.prototype.toString` — truthy — so the code does NOT
fall back to the sha256 OID and no sha256 request is built, refuting
the claim as stated ("every hash algorithm name other than sha256,
sha384, or sha512 ... is mapped to the sha256 OID"). -/
theorem createTimeStampRequest_toString_no_fallback :
    selectedOidJs ⟨"https://tsa.example", some "toString", none⟩
        ≠ JsLookup.ownStr "608648016503040201" ∧
    createTimeStampRequest A0 "aabb"
        ⟨"https://tsa.example", some "toString", none⟩
        [1, 2, 3, 4, 5, 6, 7, 8] ≠
      createTimeStampRequest A0 "aabb"
        ⟨"https://tsa.example", some "sha256", none⟩
        [1, 2, 3, 4, 5, 6, 7, 8] := by
  constructor <;> decide

/-- C8 (amended): any hash algorithm name other than sha256/sha384/
sha512 that is not a property name inherited from `Object.prototype`
selects the sha256 OID, and the request built for it is byte-for-byte
the request built for `sha256` — on those names the fallback never
fails. -/
theorem createTimeStampRequest_fallback (A : Asn1) (hash : String)
    (config : TSAConfig) (nonce : List Nat) (name : String)
    (h1 : config.hashAlgorithm = some name)
    (h2 : name ≠ "sha256") (h3 : name ≠ "sha384") (h4 : name ≠ "sha512")
    (h5 : name ∉ objectProtoProps) :
    selectedOidJs config = JsLookup.ownStr "608648016503040201" ∧
    createTimeStampRequest A hash config nonce =
      createTimeStampRequest A hash
        { config with hashAlgorithm := some "sha256" } nonce := by
  have hsel : selectedOidJs config = JsLookup.ownStr "608648016503040201" := by
    unfold selectedOidJs oidsLookup effectiveHashAlg
    rw [h1]
    by_cases he : name = ""
    · simp [he]
    · simp [he, h2, h3, h4, h5]
  have hsel2 : selectedOidJs { config with hashAlgorithm := some "sha256" }
      = JsLookup.ownStr "608648016503040201" := by
    simp [selectedOidJs, oidsLookup, effectiveHashAlg]
  refine ⟨hsel, ?_⟩
  unfold createTimeStampRequest
  rw [hsel, hsel2]

/-- C8 witness: the fallback evaluated for the unsupported name "md5"
(not an `Object.prototype` member). -/
theorem createTimeStampRequest_fallback_witness :
    (⟨"https://tsa.example", some "md5", none⟩ : TSAConfig).hashAlgorithm
        = some "md5" ∧
    ("md5" ≠ "sha256" ∧ "md5" ≠ "sha384" ∧ "md5" ≠ "sha512" ∧
     "md5" ∉ objectProtoProps) ∧
    (selectedOidJs ⟨"https://tsa.example", some "md5", none⟩
        = JsLookup.ownStr "608648016503040201" ∧
     createTimeStampRequest A0 "aabb"
        ⟨"https://tsa.example", some "md5", none⟩ [1, 2, 3, 4, 5, 6, 7, 8] =
      createTimeStampRequest A0 "aabb"
        ⟨"https://tsa.example", some "sha256", none⟩
        [1, 2, 3, 4, 5, 6, 7, 8]) :=
  ⟨rfl, ⟨by decide, by decide, by decide, by decide⟩,
   createTimeStampRequest_fallback A0 "aabb"
     ⟨"https://tsa.example", some "md5", none⟩ [1, 2, 3, 4, 5, 6, 7, 8]
     "md5" rfl (by decide) (by decide) (by decide) (by decide)⟩

-- ============================================================================
-- genTime parsing (src/index.ts, parseTimestampToken lines 409-422)
-- ============================================================================

/-- The fraction tail of the genTime regex: after the dot, `\d+` is
greedy, so it takes the longest digit run; exactly the final 'Z' must
remain. -/
def fracThenZ (cs : List Char) : Option (List Char) :=
  let ds := cs.takeWhile Char.isDigit
  let rest := cs.dropWhile Char.isDigit
  if ds ≠ [] ∧ rest = ['Z'] then some ds else none

/-- The anchored regex of `parseTimestampToken` (src/index.ts line 413):
`^(\d{4})(\d{2})(\d{2})(\d{2})(\d{2})(\d{2})(?:\.(\d+))?Z$` — fourteen
digits, an optional dot-fraction, the terminal 'Z', nothing else.
Returns the fourteen digits and the optional fraction digits. -/
def matchGenTime (cs : List Char) : Option (List Char × Option (List Char)) :=
  let d14 := cs.take 14
  let rest := cs.drop 14
  if d14.length = 14 ∧ d14.all Char.isDigit then
    match rest with
    | ['Z'] => some (d14, none)
    | '.' :: more =>
      match fracThenZ more with
      | some ds => some (d14, some ds)
      | none => none
    | _ => none
  else none

/-- Decimal value of a digit string, most significant digit first. -/
def natOfDigits (cs : List Char) : Nat :=
  cs.foldl (fun a c => 10 * a + (c.toNat - 48)) 0

/-- An absolute instant as UTC calendar components, the reading of the
`Date` the code constructs. -/
structure JsDate where
  year : Nat
  month : Nat
  day : Nat
  hour : Nat
  minute : Nat
  second : Nat
  ms : Nat
deriving DecidableEq

/-- Modelled from the spec: the millisecond reading of the ECMAScript
`Date` built from the assembled ISO string — up to three fraction
digits, right-padded with zeros (the spec's examples: ".500" is 500 ms,
a missing fraction is 0 ms). -/
def msOfFrac : Option (List Char) → Nat
  | none => 0
  | some ds =>
    natOfDigits (ds.take 3 ++ List.replicate (3 - (ds.take 3).length) '0')

/-- The genTime parsing of `parseTimestampToken`: run the regex on the
decoded string and build the instant from the captured groups (the code
assembles `YYYY-MM-DDTHH:MM:SS[.f]Z` and hands it to `new Date`). -/
def parseGenTime (s : String) : Option JsDate :=
  match matchGenTime s.data with
  | none => none
  | some (d14, frac) =>
    some { year := natOfDigits (d14.take 4)
           month := natOfDigits ((d14.drop 4).take 2)
           day := natOfDigits ((d14.drop 6).take 2)
           hour := natOfDigits ((d14.drop 8).take 2)
           minute := natOfDigits ((d14.drop 10).take 2)
           second := natOfDigits ((d14.drop 12).take 2)
           ms := msOfFrac frac }

/-- The grammar `YYYYMMDDHHMMSS[.fraction]Z`, stated from the spec's
words: fourteen digits, an optional dot followed by at least one digit,
and the terminal 'Z' — no other timezone designator is valid. -/
def GenTimeGrammar (s : String) : Prop :=
  ∃ d f, s.data = d ++ f ++ ['Z'] ∧ d.length = 14 ∧
    (∀ c ∈ d, c.isDigit = true) ∧
    (f = [] ∨ ∃ ds, f = '.' :: ds ∧ ds ≠ [] ∧ ∀ c ∈ ds, c.isDigit = true)

theorem mem_takeWhile_sat {p : Char → Bool} :
    ∀ (l : List Char) (c : Char), c ∈ l.takeWhile p → p c = true := by
  intro l
  induction l with
  | nil => intro c h; simp [List.takeWhile] at h
  | cons a rest ih =>
    intro c h
    by_cases hp : p a
    · rw [List.takeWhile_cons, if_pos hp] at h
      rcases List.mem_cons.mp h with h | h
      · rw [h]; exact hp
      · exact ih c h
    · rw [List.takeWhile_cons, if_neg hp] at h
      simp at h

theorem takeWhile_append_all {p : Char → Bool} :
    ∀ (l r : List Char), (∀ c ∈ l, p c = true) →
      (l ++ r).takeWhile p = l ++ r.takeWhile p := by
  intro l
  induction l with
  | nil => intro r _; simp
  | cons a rest ih =>
    intro r h
    have ha : p a = true := h a (by simp)
    simp only [List.cons_append, List.takeWhile_cons, if_pos ha]
    rw [ih r (fun c hc => h c (by simp [hc]))]

theorem dropWhile_append_all {p : Char → Bool} :
    ∀ (l r : List Char), (∀ c ∈ l, p c = true) →
      (l ++ r).dropWhile p = r.dropWhile p := by
  intro l
  induction l with
  | nil => intro r _; simp
  | cons a rest ih =>
    intro r h
    have ha : p a = true := h a (by simp)
    simp only [List.cons_append, List.dropWhile_cons, if_pos ha]
    exact ih r (fun c hc => h c (by simp [hc]))

theorem takeWhile_append_dropWhile_chars (p : Char → Bool) :
    ∀ l : List Char, l.takeWhile p ++ l.dropWhile p = l := by
  intro l
  induction l with
  | nil => simp
  | cons a rest ih =>
    by_cases hp : p a
    · rw [List.takeWhile_cons, List.dropWhile_cons, if_pos hp, if_pos hp]
      simp [ih]
    · rw [List.takeWhile_cons, List.dropWhile_cons, if_neg hp, if_neg hp]
      simp

theorem matchGenTime_some_decomp (cs d14 : List Char)
    (frac : Option (List Char))
    (h : matchGenTime cs = some (d14, frac)) :
    d14.length = 14 ∧ (∀ c ∈ d14, c.isDigit = true) ∧
    ((frac = none ∧ cs = d14 ++ ['Z']) ∨
     (∃ ds, frac = some ds ∧ ds ≠ [] ∧ (∀ c ∈ ds, c.isDigit = true) ∧
        cs = d14 ++ '.' :: ds ++ ['Z'])) := by
  have hsplit := List.take_append_drop 14 cs
  simp only [matchGenTime] at h
  split at h
  case isFalse => simp at h
  case isTrue hc =>
    obtain ⟨hlen, hdig⟩ := hc
    have hdig' : ∀ c ∈ cs.take 14, c.isDigit = true := by
      intro c hcm
      exact List.all_eq_true.mp hdig c hcm
    split at h
    · -- rest = ['Z']
      rename_i heq
      injection h with h'
      injection h' with h1 h2
      subst h1; subst h2
      refine ⟨hlen, hdig', Or.inl ⟨rfl, ?_⟩⟩
      calc cs = List.take 14 cs ++ List.drop 14 cs := hsplit.symm
        _ = List.take 14 cs ++ ['Z'] := by rw [heq]
    · -- rest = '.' :: more
      rename_i more heq
      cases hf : fracThenZ more with
      | none => rw [hf] at h; simp at h
      | some ds =>
        rw [hf] at h
        injection h with h'
        injection h' with h1 h2
        subst h1; subst h2
        simp only [fracThenZ] at hf
        split at hf
        case isTrue hcond =>
          obtain ⟨hne, hrest⟩ := hcond
          injection hf with hds
          subst hds
          refine ⟨hlen, hdig', Or.inr ⟨more.takeWhile Char.isDigit, rfl, hne,
            fun c hcm => mem_takeWhile_sat more c hcm, ?_⟩⟩
          have hmore : more.takeWhile Char.isDigit ++ ['Z'] = more := by
            calc more.takeWhile Char.isDigit ++ ['Z']
                = more.takeWhile Char.isDigit ++ more.dropWhile Char.isDigit := by
                  rw [hrest]
              _ = more := takeWhile_append_dropWhile_chars Char.isDigit more
          calc cs = List.take 14 cs ++ List.drop 14 cs := hsplit.symm
            _ = List.take 14 cs ++ '.' :: more := by rw [heq]
            _ = List.take 14 cs ++ '.' :: more.takeWhile Char.isDigit
                  ++ ['Z'] := by rw [List.append_assoc, List.cons_append, hmore]
        case isFalse => simp at hf
    · -- any other rest shape
      simp at h

theorem parseGenTime_isSome_iff (s : String) :
    (parseGenTime s).isSome = true ↔ GenTimeGrammar s := by
  constructor
  · intro h
    unfold parseGenTime at h
    cases hm : matchGenTime s.data with
    | none => rw [hm] at h; simp at h
    | some pr =>
      obtain ⟨d14, frac⟩ := pr
      obtain ⟨hlen, hdig, hcase⟩ := matchGenTime_some_decomp s.data d14 frac hm
      rcases hcase with ⟨_, hcs⟩ | ⟨ds, _, hne, hdsdig, hcs⟩
      · exact ⟨d14, [], by simpa using hcs, hlen, hdig, Or.inl rfl⟩
      · refine ⟨d14, '.' :: ds, ?_, hlen, hdig, Or.inr ⟨ds, rfl, hne, hdsdig⟩⟩
        simpa using hcs
  · rintro ⟨d, f, hs, hlen, hdig, hf⟩
    have htake : s.data.take 14 = d := by
      rw [hs, List.append_assoc, ← hlen]
      exact List.take_left d (f ++ ['Z'])
    have hdrop : s.data.drop 14 = f ++ ['Z'] := by
      rw [hs, List.append_assoc, ← hlen]
      exact List.drop_left d (f ++ ['Z'])
    unfold parseGenTime matchGenTime
    rw [htake, hdrop, if_pos ⟨hlen, List.all_eq_true.mpr hdig⟩]
    rcases hf with hf | ⟨ds, hf, hne, hdsdig⟩
    · subst hf
      simp
    · subst hf
      have htw : (ds ++ ['Z']).takeWhile Char.isDigit = ds := by
        rw [takeWhile_append_all ds ['Z'] hdsdig]
        simp [List.takeWhile_cons]
      have hdw : (ds ++ ['Z']).dropWhile Char.isDigit = ['Z'] := by
        rw [dropWhile_append_all ds ['Z'] hdsdig]
        simp [List.dropWhile_cons]
      simp only [List.cons_append, List.nil_append]
      unfold fracThenZ
      rw [htw, hdw, if_pos ⟨hne, rfl⟩]
      simp

/-- C7: the genTime parser of `parseTimestampToken` accepts exactly the
grammar `YYYYMMDDHHMMSS[.fraction]Z` — in particular a string missing
the trailing 'Z' or carrying a numeric offset is rejected — and
"20240101120000Z" parses to the instant 2024-01-01T12:00:00.000Z while
"20240101120000.500Z" parses to 2024-01-01T12:00:00.500Z. -/
theorem parseGenTime_grammar_exact :
    (∀ s : String, (parseGenTime s).isSome = true ↔ GenTimeGrammar s) ∧
    parseGenTime "20240101120000Z" = some ⟨2024, 1, 1, 12, 0, 0, 0⟩ ∧
    parseGenTime "20240101120000.500Z" = some ⟨2024, 1, 1, 12, 0, 0, 500⟩ ∧
    parseGenTime "20240101120000" = none ∧
    parseGenTime "20240101120000+0100" = none :=
  ⟨parseGenTime_isSome_iff, by decide, by decide, by decide, by decide⟩

-- ============================================================================
-- JPEG EXIF embedding (src/node/index.ts)
-- ============================================================================

/-- A value read from an EXIF tag: the codec yields either a decoded
string or a raw byte array. -/
inductive ExifVal
  | str : String → ExifVal
  | bytes : List Nat → ExifVal
deriving DecidableEq

/-- The slice of the codec's EXIF object that the engine reads or
writes: `Exif[UserComment]`, `0th[Artist]`, `0th[ImageDescription]` and
`0th[Software]`; the object's remaining groups pass through the codec
untouched and are not observed. -/
structure ExifObj where
  userComment : Option ExifVal
  artist : Option String
  imageDescription : Option String
  software : Option String
deriving DecidableEq

/-- The fresh empty EXIF object built when `load` throws. -/
def emptyExif : ExifObj := ⟨none, none, none, none⟩

/-- Modelled from the spec: the external image-metadata codec of §4.5
(`@substrate-system/exif`, not part of this repository): `load` reads
the EXIF object and fails on images without parseable metadata,
`remove` is `stripMetadata`, `dump`/`insert` write a metadata block.
The codec contract appears as hypotheses of the theorems using it. -/
structure ExifCodec where
  load : List Nat → Except String ExifObj
  remove : List Nat → List Nat
  dump : ExifObj → List Nat
  insert : List Nat → List Nat → List Nat

/-- Modelled from the spec: platform `JSON.stringify` / `JSON.parse` on
a `FileSignature`; §4.3 makes the round trip a contract, stated as a
hypothesis where needed. -/
structure JsonCodec where
  stringifyFileSig : FileSignature → String
  parseFileSig : String → Option FileSignature

/-- The author/title/description metadata of the JPEG signer. -/
structure ExifMeta where
  author : Option String
  title : Option String
  description : Option String
deriving DecidableEq

/-- `{ ...metadata, mimeType: 'image/jpeg' }` as the ordered map passed
on to `signFile`. -/
def mdPairs (md : Option ExifMeta) : MetaMap :=
  (match md with
   | none => []
   | some m =>
     (match m.author with | some a => [("author", a)] | none => []) ++
     (match m.title with | some t => [("title", t)] | none => []) ++
     (match m.description with | some d => [("description", d)] | none => [])) ++
  [("mimeType", "image/jpeg")]

/-- The marker of the legacy human-readable embedding. -/
def markerChars : List Char := "Signature: ".data

/-- Does the pattern occur at the head of the text? -/
def startsWithPat : List Char → List Char → Bool
  | [], _ => true
  | _ :: _, [] => false
  | p :: ps, c :: cs => p = c && startsWithPat ps cs

/-- `String.prototype.includes`: the pattern occurs somewhere. -/
def containsPat (pat : List Char) : List Char → Bool
  | [] => pat.isEmpty
  | c :: cs => startsWithPat pat (c :: cs) || containsPat pat cs

/-- An opening brace (written by code point to keep it out of string
literals). -/
def lbrace : Char := Char.ofNat 123

/-- A closing brace. -/
def rbrace : Char := Char.ofNat 125

/-- Index of the last closing brace of a line, if any. -/
def lastCloseBrace (l : List Char) : Option Nat :=
  match l.reverse.findIdx? (fun c => c = rbrace) with
  | some k => some (l.length - 1 - k)
  | none => none

/-- The brace capture of the legacy regex right after a marker
occurrence: an opening brace, one or more non-newline characters taken
greedily, and a closing brace (so: up to the last closing brace on the
line, which must not be adjacent to the opening one). -/
def matchBraceAt : List Char → Option String
  | c :: rest =>
    if c = lbrace then
      let line := rest.takeWhile (fun ch => ch ≠ '\n' ∧ ch ≠ '\r')
      match lastCloseBrace line with
      | some j => if 1 ≤ j then some ⟨lbrace :: line.take (j + 1)⟩ else none
      | none => none
    else none
  | [] => none

/-- `userComment.match(re)` for the legacy extraction regex: leftmost
occurrence of the marker followed by a brace capture. -/
def sigMatch : List Char → Option String
  | [] => none
  | c :: cs =>
    if startsWithPat markerChars (c :: cs) then
      match matchBraceAt ((c :: cs).drop markerChars.length) with
      | some cap => some cap
      | none => sigMatch cs
    else sigMatch cs

/-- Result of `verifyJpegExif`. -/
structure JpegVerifyResult where
  valid : Bool
  signature : Option FileSignature
  errors : List String
deriving DecidableEq

/-- `load(jpegBuffer)` with the signer's try/catch fallback to a fresh
empty EXIF object. -/
def loadOrEmpty (E : ExifCodec) (jpeg : List Nat) : ExifObj :=
  match E.load jpeg with
  | Except.ok o => o
  | Except.error _ => emptyExif

/-- The EXIF object `signJpegWithExif` writes: the loaded (or fresh)
object with the signature JSON in `UserComment`, author in `Artist`,
title/description in `ImageDescription` (JavaScript truthiness guards
each field) and the generator tag in `Software`. -/
def signedExifObj (base : ExifObj) (sigJson : String) (md : Option ExifMeta)
    (ver : String) : ExifObj :=
  let o1 := { base with userComment := some (ExifVal.str sigJson) }
  let o2 := match md with
    | none => o1
    | some m =>
      let oa := match jsTruthy m.author with
        | some a => { o1 with artist := some a }
        | none => o1
      let ob := match jsTruthy m.title with
        | some t => { oa with imageDescription := some t }
        | none => oa
      match jsTruthy m.description with
      | some d =>
        let pre := match jsTruthy m.title with
          | some t => t ++ "\n\n"
          | none => ""
        { ob with imageDescription := some (pre ++ d) }
      | none => ob
  { o2 with software := some ("@substrate-system/keyframe v" ++ ver) }

/-- The `FileSignature` that `signJpegWithExif` creates: `signFile`
over the metadata-stripped (clean) image. -/
def jpegFileSig (S : Subtle) (E : ExifCodec) (jpeg : List Nat)
    (filename : String) (kp : Keypair) (ts : Timestamp)
    (md : Option ExifMeta) (now : String) : FileSignature :=
  signFile S filename (E.remove jpeg) kp ts (some (mdPairs md)) now

/-- `signJpegWithExif` (src/node/index.ts lines 158-229): load (or
default) the EXIF object, strip the image, sign the clean bytes, embed
the signature JSON in `UserComment`, and insert the dumped EXIF block
into the clean image. -/
def signJpegWithExif (S : Subtle) (J : JsonCodec) (E : ExifCodec)
    (ver : String) (jpeg : List Nat) (filename : String) (kp : Keypair)
    (ts : Timestamp) (md : Option ExifMeta) (now : String) : List Nat :=
  let base := loadOrEmpty E jpeg
  let cleanJpegBuffer := E.remove jpeg
  let sig := jpegFileSig S E jpeg filename kp ts md now
  let obj := signedExifObj base (J.stringifyFileSig sig) md ver
  E.insert (E.dump obj) cleanJpegBuffer

/-- `verifyJpegExif` (src/node/index.ts lines 234-324): load the EXIF,
take the `UserComment` (a falsy or non-string value means no
signature), run the legacy marker extraction if present, parse the
JSON, re-strip the presented image and verify the signature against
the clean bytes. -/
def verifyJpegExif (S : Subtle) (J : JsonCodec) (E : ExifCodec)
    (jpeg : List Nat) : JpegVerifyResult :=
  match E.load jpeg with
  | Except.error msg =>
    ⟨false, none, ["Failed to verify JPEG EXIF: " ++ msg]⟩
  | Except.ok exifObj =>
    match exifObj.userComment with
    | none => ⟨false, none, ["No signature found in EXIF metadata"]⟩
    | some (ExifVal.bytes _) =>
      ⟨false, none, ["No signature found in EXIF metadata"]⟩
    | some (ExifVal.str s) =>
      if s = "" then ⟨false, none, ["No signature found in EXIF metadata"]⟩
      else
        let sigJson := if containsPat markerChars s.data then
                         (sigMatch s.data).getD s else s
        match J.parseFileSig sigJson with
        | none => ⟨false, none, ["Failed to parse signature JSON from EXIF"]⟩
        | some signature =>
          let cleanJpegBuffer := E.remove jpeg
          let verification := verifyFileSignature S signature cleanJpegBuffer
          ⟨verification.valid, some signature, verification.errors⟩

theorem signedExifObj_userComment (base : ExifObj) (s : String)
    (md : Option ExifMeta) (ver : String) :
    (signedExifObj base s md ver).userComment = some (ExifVal.str s) := by
  cases md with
  | none => rfl
  | some m =>
    simp only [signedExifObj]
    rcases hA : jsTruthy m.author with _ | a <;>
      rcases hT : jsTruthy m.title with _ | t <;>
        rcases hD : jsTruthy m.description with _ | d <;>
          simp [hA, hT, hD]

/-- C9: signing computes the `FileSignature` over the stripped image
and verification re-strips before hashing, so verifying the embedded
output succeeds — assuming the codec contract: strip is idempotent,
strip cancels an insertion, the codec reads back the EXIF object the
signer wrote, and the signature JSON round-trips (non-empty, without
the legacy marker). -/
theorem verifyJpegExif_signJpegWithExif (S : Subtle) (J : JsonCodec)
    (E : ExifCodec) (ver : String) (jpeg : List Nat) (filename : String)
    (kp : Keypair) (ts : Timestamp) (md : Option ExifMeta) (now : String)
    (hsha : ∀ b, IsBytes (S.sha256 b))
    (hsign : ∀ p d, IsBytes (S.edSign p d))
    (hpub : IsBytes kp.publicKey)
    (hkp : KeypairValid S kp)
    (hidem : E.remove (E.remove jpeg) = E.remove jpeg)
    (hstrip : ∀ e x, E.remove (E.insert e x) = E.remove x)
    (hload : E.load (signJpegWithExif S J E ver jpeg filename kp ts md now) =
      Except.ok (signedExifObj (loadOrEmpty E jpeg)
        (J.stringifyFileSig (jpegFileSig S E jpeg filename kp ts md now))
        md ver))
    (hjson : J.parseFileSig
        (J.stringifyFileSig (jpegFileSig S E jpeg filename kp ts md now)) =
      some (jpegFileSig S E jpeg filename kp ts md now))
    (hne : J.stringifyFileSig (jpegFileSig S E jpeg filename kp ts md now) ≠ "")
    (hmk : containsPat markerChars
        (J.stringifyFileSig (jpegFileSig S E jpeg filename kp ts md now)).data
      = false) :
    verifyJpegExif S J E (signJpegWithExif S J E ver jpeg filename kp ts md now)
      = ⟨true, some (jpegFileSig S E jpeg filename kp ts md now), []⟩ := by
  have hclean : E.remove (signJpegWithExif S J E ver jpeg filename kp ts md now)
      = E.remove jpeg := by
    unfold signJpegWithExif
    rw [hstrip, hidem]
  have hvf := verifyFile_signFile_aux S kp hsha hsign hpub hkp filename
    (E.remove jpeg) ts (some (mdPairs md)) now
  simp only [verifyJpegExif, hload, signedExifObj_userComment, hmk,
    Bool.false_eq_true, if_false, hjson, hclean]
  rw [if_neg hne]
  unfold jpegFileSig
  rw [hvf]

-- Concrete instances for the C9 witness.

/-- The signature signed over the stripped witness image (the witness
codec strips every image to `[]`). -/
def sigW : FileSignature :=
  signFile S0 "img.jpg" [] kp0 ⟨"tsa", "tok", "t0"⟩ (some (mdPairs none)) "t1"

/-- A concrete JSON codec for the witness. -/
def J0 : JsonCodec where
  stringifyFileSig := fun _ => "sig"
  parseFileSig := fun s => if s = "sig" then some sigW else none

/-- The EXIF object the witness signer writes. -/
def objW : ExifObj := signedExifObj emptyExif "sig" none "1.0"

/-- A concrete EXIF codec for the witness: strip yields `[]`, insert
keeps only the metadata block, dump emits `[]`, and load recovers the
written object exactly on the signer's output. -/
def E0 : ExifCodec where
  load := fun b => if b = [] then Except.ok objW else Except.error "no exif"
  remove := fun _ => []
  dump := fun _ => []
  insert := fun e _ => e

/-- C9 witness: sign-then-verify on the concrete image `[9]` with the
concrete codecs. -/
theorem verifyJpegExif_signJpegWithExif_witness :
    E0.remove (E0.remove [9]) = E0.remove [9] ∧
    J0.stringifyFileSig (jpegFileSig S0 E0 [9] "img.jpg" kp0
      ⟨"tsa", "tok", "t0"⟩ none "t1") ≠ "" ∧
    verifyJpegExif S0 J0 E0
      (signJpegWithExif S0 J0 E0 "1.0" [9] "img.jpg" kp0
        ⟨"tsa", "tok", "t0"⟩ none "t1")
      = ⟨true, some (jpegFileSig S0 E0 [9] "img.jpg" kp0
          ⟨"tsa", "tok", "t0"⟩ none "t1"), []⟩ :=
  ⟨rfl, by decide,
   verifyJpegExif_signJpegWithExif S0 J0 E0 "1.0" [9] "img.jpg" kp0
     ⟨"tsa", "tok", "t0"⟩ none "t1"
     S0_sha_bytes S0_sign_bytes (by decide) kp0_valid
     rfl (fun _ _ => rfl) rfl (by decide) (by decide) (by decide)⟩

end Keyframe
